import Mathlib

/-!
Verification of the RPG helper bot's command-resolution and dice-evaluation
engine (`src/rpg_helper.py`) against its natural-language specification.

The Python source is shallowly embedded: dictionaries become functions
`String → Option _`, Python exceptions become `Except PyErr _`, machine
integers become `Int`/`Nat` (Python ints are unbounded), and the regular
expressions used by the source are translated into executable parsers that
follow the backtracking semantics of Python's `regex.match` on the concrete
patterns appearing in the source.
-/

/-- Python exceptions that the embedded code can raise. -/
inductive PyErr where
  | runtimeError (args : List String)
  | keyError (key : String)
  | indexError
  | typeError
  | valueError
deriving DecidableEq, Repr

/-- The Python values stored in a character's stats dictionary:
integers, strings, lists of strings and string-to-string dictionaries. -/
inductive PyVal where
  | int (n : Int)
  | str (s : String)
  | list (l : List String)
  | dict (d : List (String × String))
deriving DecidableEq, Repr

instance {ε α : Type} [DecidableEq ε] [DecidableEq α] : DecidableEq (Except ε α) :=
  fun a b =>
  match a, b with
  | .ok x, .ok y =>
    if h : x = y then isTrue (h ▸ rfl) else isFalse (fun hc => h (Except.ok.inj hc))
  | .error x, .error y =>
    if h : x = y then isTrue (h ▸ rfl) else isFalse (fun hc => h (Except.error.inj hc))
  | .ok _, .error _ => isFalse (fun hc => Except.noConfusion hc)
  | .error _, .ok _ => isFalse (fun hc => Except.noConfusion hc)

/-- The whitespace class used by Python's `str.split`, `str.strip` and the
regex classes `\s` (restricted to ASCII, which is all the engine feeds it). -/
def pyIsSpace (c : Char) : Bool :=
  c = ' ' || c = '\t' || c = '\n' || c = '\r' || c = Char.ofNat 11 || c = Char.ofNat 12

/-- Python `int` applied to a nonempty string of decimal digits. -/
def digitsToNat (l : List Char) : Nat :=
  l.foldl (fun a c => a * 10 + (c.toNat - 48)) 0

/-- Python `str.strip()`. -/
def pyStrip (s : String) : String :=
  String.mk (((s.data.dropWhile pyIsSpace).reverse.dropWhile pyIsSpace).reverse)

/-- Python `str.split()` (split on whitespace runs, dropping empty fields);
the accumulator holds the current token reversed. -/
def pySplitAux : List Char → List Char → List String
  | [], acc => if acc.isEmpty then [] else [String.mk acc.reverse]
  | c :: rest, acc =>
    if pyIsSpace c then
      if acc.isEmpty then pySplitAux rest []
      else String.mk acc.reverse :: pySplitAux rest []
    else pySplitAux rest (c :: acc)

def pySplit (s : String) : List String := pySplitAux s.data []

/-- A single-quote character, used by Python `repr` of strings. -/
def squote : String := String.singleton (Char.ofNat 39)

def lbrace : Char := Char.ofNat 123

def rbrace : Char := Char.ofNat 125

/-- Python `repr` of a plain string (no embedded quotes or escapes arise
from the engine's data). -/
def pyReprStr (s : String) : String := squote ++ s ++ squote

/-- Python `str` of a list of ints, e.g. `[3, 5]`. -/
def reprIntList (l : List Int) : String :=
  "[" ++ String.intercalate ", " (l.map toString) ++ "]"

/-- Is `n` a (possibly empty) prefix of `h`? -/
def prefixOfL : List Char → List Char → Bool
  | [], _ => true
  | _ :: _, [] => false
  | a :: as, b :: bs => a = b && prefixOfL as bs

/-- Python `needle in haystack` on strings (substring test). -/
def inStrL : List Char → List Char → Bool
  | n, [] => prefixOfL n []
  | n, h => prefixOfL n h ||
    match h with
    | [] => false
    | _ :: t => inStrL n t

/-- First-match association-list lookup (Python dict lookup; keys unique). -/
def lookupStr : List (String × String) → String → Option String
  | [], _ => none
  | p :: rest, k => if p.1 = k then some p.2 else lookupStr rest k

/-- Python `key in value` for the value shapes the engine stores:
membership for dicts and lists, substring test for strings, `TypeError`
for ints (`in` is not supported by `int`). -/
def pyContains (v : PyVal) (k : String) : Except PyErr Bool :=
  match v with
  | .dict d => .ok (d.any (fun p => p.1 == k))
  | .list l => .ok (l.contains k)
  | .str s => .ok (inStrL k.data s.data)
  | .int _ => .error .typeError

/-- Python `str(value)`, as used when `str.format` substitutes a value. -/
def PyVal.formatStr : PyVal → String
  | .int n => toString n
  | .str s => s
  | .list l => "[" ++ String.intercalate ", " (l.map pyReprStr) ++ "]"
  | .dict d =>
    String.singleton lbrace ++
      String.intercalate ", " (d.map (fun p => pyReprStr p.1 ++ ": " ++ pyReprStr p.2)) ++
      String.singleton rbrace

/-- Scanner state for `str.format`: ordinary text, just after an opening
or closing brace, or inside a replacement field (name accumulated in
reverse). -/
inductive FmtMode where
  | plain
  | afterLB
  | afterRB
  | field (acc : List Char)

/-- Python `template.format(**context)` restricted to simple `{name}`
fields (the only fields the engine's templates use): `{{`/`}}` escape a
brace, a missing name raises `KeyError(name)`, a stray or unterminated
brace raises `ValueError`. -/
def pyFormatAux (ctx : String → Option String) :
    List Char → FmtMode → Except PyErr (List Char)
  | [], .plain => .ok []
  | [], _ => .error .valueError
  | c :: rest, .plain =>
    if c = lbrace then pyFormatAux ctx rest .afterLB
    else if c = rbrace then pyFormatAux ctx rest .afterRB
    else (fun t => c :: t) <$> pyFormatAux ctx rest .plain
  | c :: rest, .afterLB =>
    if c = lbrace then (fun t => lbrace :: t) <$> pyFormatAux ctx rest .plain
    else if c = rbrace then
      match ctx "" with
      | some v => (fun t => v.data ++ t) <$> pyFormatAux ctx rest .plain
      | none => .error (.keyError "")
    else pyFormatAux ctx rest (.field [c])
  | c :: rest, .afterRB =>
    if c = rbrace then (fun t => rbrace :: t) <$> pyFormatAux ctx rest .plain
    else .error .valueError
  | c :: rest, .field acc =>
    if c = rbrace then
      match ctx (String.mk acc.reverse) with
      | some v => (fun t => v.data ++ t) <$> pyFormatAux ctx rest .plain
      | none => .error (.keyError (String.mk acc.reverse))
    else if c = lbrace then .error .valueError
    else pyFormatAux ctx rest (.field (c :: acc))

def pyFormat (tmpl : String) (ctx : String → Option String) : Except PyErr String :=
  (fun l => String.mk l) <$> pyFormatAux ctx tmpl.data .plain

/-- A stats dictionary: finite map from key to stored value. -/
def StatsMap := String → Option PyVal

def emptyStats : StatsMap := fun _ => none

def updateMap (s : StatsMap) (k : String) (v : PyVal) : StatsMap :=
  fun k' => if k' = k then some v else s k'

/-- Source `STAT_ORDER = ["str", "dex", "con", "int", "wis", "cha"]`. -/
def STAT_ORDER : List String := ["str", "dex", "con", "int", "wis", "cha"]

/-- The six derived-modifier keys guarded by `Stats.__setitem__`. -/
def MOD_KEYS : List String :=
  ["strmod", "dexmod", "conmod", "intmod", "wismod", "chamod"]

namespace Stats

/-- Source `Stats.get_modifier`: `mod = int(value/2) - 5` (Python `int(...)` of a
true division truncates toward zero, hence `Int.tdiv`), rendered as the
bare number when negative and with a leading `+` otherwise. -/
def get_modifier (value : Int) : String :=
  let mod := Int.tdiv value 2 - 5
  if mod < 0 then toString mod else "+" ++ toString mod

/-- Source `Stats.__setitem__`: writes to a modifier key are silently dropped;
a write to one of the six ability keys also stores the recomputed
modifier under `key + "mod"`; any other key is stored verbatim.
`int(value/2)` on a non-numeric value raises `TypeError`. -/
def setitem (s : StatsMap) (key : String) (value : PyVal) : Except PyErr StatsMap :=
  if key ∈ MOD_KEYS then .ok s
  else if key ∈ STAT_ORDER then
    match value with
    | .int n => .ok (updateMap (updateMap s (key ++ "mod") (.str (get_modifier n))) key value)
    | _ => .error .typeError
  else .ok (updateMap s key value)

/-- Source `Stats.__init__`: start from an empty dict and insert every entry of
the source mapping through `__setitem__`, in order. -/
def init (from_dict : List (String × PyVal)) : Except PyErr StatsMap :=
  from_dict.foldlM (fun s kv => setitem s kv.1 kv.2) emptyStats

end Stats

/-- The groups captured by the roll regex
`([0-9]*)d([0-9]+)\s*([+\-]\s*[0-9]+)*(\s+[A|D])?`:
the (possibly empty) count digits, the sides digits, every capture of the
repeated signed-constant group, and the optional flag capture. -/
structure ParsedRoll where
  numberStr : String
  sidesStr : String
  constants : List String
  adv : Option String
deriving DecidableEq, Repr

/-- One iteration body of `([+\-]\s*[0-9]+)*` after the sign: greedy
whitespace then a mandatory greedy digit run.  Returns the consumed text
and the remainder, or `none` when the iteration fails (no digits). -/
def constTail (l : List Char) : Option (List Char × List Char) :=
  let ws := l.takeWhile pyIsSpace
  let r := l.dropWhile pyIsSpace
  let ds := r.takeWhile Char.isDigit
  let r2 := r.dropWhile Char.isDigit
  if ds.isEmpty then none else some (ws ++ ds, r2)

/-- The greedy iteration of `([+\-]\s*[0-9]+)*`: each iteration needs a
sign immediately (no leading whitespace between iterations); a failed
iteration attempt consumes nothing and ends the loop.  Returns the list
of captures and the remainder.  The fuel argument only bounds the
recursion (each successful iteration consumes at least two characters,
so `l.length` fuel is always enough). -/
def parseConstsGo : Nat → List Char → List String × List Char
  | _, [] => ([], [])
  | 0, l => ([], l)
  | fuel + 1, c :: rest =>
    if c = '+' || c = '-' then
      match constTail rest with
      | some (body, rest') =>
        let (more, fin) := parseConstsGo fuel rest'
        (String.mk (c :: body) :: more, fin)
      | none => ([], c :: rest)
    else ([], c :: rest)

def parseConsts (l : List Char) : List String × List Char :=
  parseConstsGo l.length l

/-- The optional flag group `(\s+[A|D])?`: present exactly when the
remainder starts with a nonempty whitespace run whose first following
character is in the class `[A|D]` (which contains the literal `|`). -/
def parseAdv (l : List Char) : Option String :=
  let ws := l.takeWhile pyIsSpace
  let r := l.dropWhile pyIsSpace
  if ws.isEmpty then none
  else
    match r with
    | c :: _ => if c = 'A' || c = '|' || c = 'D' then some (String.mk (ws ++ [c])) else none
    | [] => none

namespace RPGHelper

/-- Source `re.match(r"([0-9]*)d([0-9]+)\s*([+\-]\s*[0-9]+)*(\s+[A|D])?", text.strip())`.
`re.match` anchors at the start only; since every part after the sides
digits can match the empty string, the greedy first pass never backtracks,
so the match fails only when the maximal leading digit run is not followed
by `d` plus at least one digit.  In particular the `\s*` after the sides
consumes any whitespace there, which makes a flag reachable only right
after a constant capture, and trailing unmatched text is ignored. -/
def rollParse (text : String) : Option ParsedRoll :=
  let l := (pyStrip text).data
  let num := l.takeWhile Char.isDigit
  match l.dropWhile Char.isDigit with
  | 'd' :: r2 =>
    let sides := r2.takeWhile Char.isDigit
    if sides.isEmpty then none
    else
      let r3 := (r2.dropWhile Char.isDigit).dropWhile pyIsSpace
      let (consts, r4) := parseConsts r3
      some ⟨String.mk num, String.mk sides, consts, parseAdv r4⟩
  | _ => none

/-- Source `number = int(number) if number else 1`. -/
def numberOf (g : ParsedRoll) : Nat :=
  if g.numberStr.isEmpty then 1 else digitsToNat g.numberStr.data

/-- Source `int(re.sub(r"\s+", "", constant))`: strip all whitespace from a
captured constant, then convert the signed digit string. -/
def constToInt (s : String) : Int :=
  match s.data.filter (fun c => !pyIsSpace c) with
  | '+' :: ds => (digitsToNat ds : Int)
  | '-' :: ds => -(digitsToNat ds : Int)
  | ds => (digitsToNat ds : Int)

/-- Lines 326–333 of the source: `if adv: adv = adv.strip()` followed by
the advantage/disadvantage selection between the two roll sets. -/
def true_rolls (adv : Option String) (rolls rerolls : List Int) : List Int :=
  let advT := adv.map pyStrip
  if advT = some "A" && decide (rolls.sum < rerolls.sum) then rerolls
  else if advT = some "D" && decide (rerolls.sum < rolls.sum) then rerolls
  else rolls

/-- Source `sum(true_rolls + [int(...) for constant in constants if constant])`. -/
def rollTotal (g : ParsedRoll) (rolls rerolls : List Int) : Int :=
  (true_rolls g.adv rolls rerolls).sum +
    ((g.constants.filter (fun c => !c.isEmpty)).map constToInt).sum

/-- The two `randint` comprehensions and the total: draws are taken from
the stream `draw` (primary set first, then the re-roll set), `randint(1, 0)`
raising `ValueError` when `sides` is `0` and at least one die is drawn. -/
def evalGroups (draw : Nat → Int) (g : ParsedRoll) :
    Except PyErr (List Int × List Int × Int) :=
  let number := numberOf g
  let sides := digitsToNat g.sidesStr.data
  if sides = 0 && number ≠ 0 then .error .valueError
  else
    let rolls := (List.range number).map draw
    let rerolls := (List.range number).map (fun i => draw (number + i))
    .ok (rolls, rerolls, rollTotal g rolls rerolls)

/-- The response text of `roll` when a flag survived parsing. -/
def advFormat (user roll_command character : String)
    (rolls rerolls : List Int) (total : Int) (advStripped : String) : String :=
  let adv_text := if advStripped = "A" then "ADV" else "DISADV"
  "<@" ++ user ++ "> rolled `" ++ roll_command ++ "` for " ++ character ++ "\n" ++
    "```" ++ reprIntList rolls ++ ", " ++ reprIntList rerolls ++ "\n" ++
    "Total (" ++ adv_text ++ "): " ++ toString total ++ "```"

/-- The response text of `roll` when no flag was captured. -/
def plainFormat (user roll_command character : String)
    (rolls : List Int) (total : Int) : String :=
  "<@" ++ user ++ "> rolled `" ++ roll_command ++ "` for " ++ character ++ "\n" ++
    "```" ++ reprIntList rolls ++ "\n" ++ "Total: " ++ toString total ++ "```"

/-- Source `RPGHelper.roll` (lines 305–356): parse the command, draw both sets,
select by flag, and format; a non-matching command yields the
"Unknown command" response. -/
def roll (draw : Nat → Int) (user character roll_command : String) :
    Except PyErr String :=
  match rollParse roll_command with
  | none => .ok ("<@" ++ user ++ "> Unknown command: " ++ roll_command)
  | some g =>
    match evalGroups draw g with
    | .error e => .error e
    | .ok (rolls, rerolls, total) =>
      match g.adv.map pyStrip with
      | some a =>
        if a.isEmpty then .ok (plainFormat user roll_command character rolls total)
        else .ok (advFormat user roll_command character rolls rerolls total a)
      | none => .ok (plainFormat user roll_command character rolls total)

/-- Source `RPGHelper.get_proficiency_by_level`, `f"+{int((level - 1) / 4) + 2}"`,
again with Python's truncating `int(...)` of a true division. -/
def get_proficiency_by_level (level : Int) : String :=
  "+" ++ toString (Int.tdiv (level - 1) 4 + 2)

/-- Source `re.match(r"(.*?)(\s+[A|D])?$", roll_command)` on a single-line input:
the lazy leading group makes the optional suffix group match the longest
trailing run of whitespace followed by one `[A|D]` character, when the
input ends that way; otherwise the whole input is the first group. -/
def advSplit (s : String) : String × Option String :=
  match s.data.reverse with
  | c :: rest =>
    if c = 'A' || c = '|' || c = 'D' then
      let ws := rest.takeWhile pyIsSpace
      let pre := rest.dropWhile pyIsSpace
      if ws.isEmpty then (s, none)
      else (String.mk pre.reverse, some (String.mk (ws.reverse ++ [c])))
    else (s, none)
  | [] => (s, none)

/-- The engine state read by `resolve_command`: the global macro table and
the three per-game tables (Python dicts become partial maps). -/
structure RPGState where
  macros : String → Option String
  user_to_characters : String → Option (List String)
  user_default : String → Option String
  characters : String → Option StatsMap

/-- The macro expansion
`template.format(**stats, is_proficient=..., proficiency=prof, adv_or_disadv=...)`.
Python evaluates the keyword arguments first (`stats["proficient_rolls"]`
may raise `KeyError`, the membership test may raise `TypeError`), then the
call itself raises `TypeError` when a keyword duplicates a `**stats` key,
and finally `format` substitutes, raising `KeyError` on a placeholder
absent from the context. -/
def expandMacro (tmpl : String) (stats : StatsMap) (command prof : String)
    (adv_or_disadv : Option String) : Except PyErr String :=
  match stats "proficient_rolls" with
  | none => .error (.keyError "proficient_rolls")
  | some pr =>
    match pyContains pr command with
    | .error e => .error e
    | .ok isProf =>
      if (stats "is_proficient").isSome || (stats "proficiency").isSome ||
          (stats "adv_or_disadv").isSome then .error .typeError
      else
        pyFormat tmpl (fun name =>
          if name = "is_proficient" then some (if isProf then prof else "")
          else if name = "proficiency" then some prof
          else if name = "adv_or_disadv" then
            some (match adv_or_disadv with | some a => a | none => "")
          else (stats name).map PyVal.formatStr)

/-- The tail of `resolve_command` once the acting character and the
(possibly rewritten) command are fixed: look up the stats, compute the
proficiency bonus from `stats["level"]`, split off a trailing flag, and
try the global then the character-local macro table; a miss returns the
command unchanged. -/
def resolveWith (st : RPGState) (character cmd : String) :
    Except PyErr (String × String) :=
  match st.characters character with
  | none => .error (.keyError character)
  | some stats =>
    match stats "level" with
    | none => .error (.keyError "level")
    | some (.int lv) =>
      let prof := get_proficiency_by_level lv
      let (command, adv_or_disadv) := advSplit cmd
      match st.macros command with
      | some tmpl =>
        (expandMacro tmpl stats command prof adv_or_disadv).map (fun r => (character, r))
      | none =>
        match stats "macros" with
        | none => .ok (character, cmd)
        | some m =>
          match pyContains m command with
          | .error e => .error e
          | .ok true =>
            match m with
            | .dict d =>
              match lookupStr d command with
              | some tmpl =>
                (expandMacro tmpl stats command prof adv_or_disadv).map
                  (fun r => (character, r))
              | none => .error (.keyError command)
            | _ => .error .typeError
          | .ok false => .ok (character, cmd)
    | some _ => .error .typeError

/-- Source `RPGHelper.resolve_command` (lines 247–298): a user without characters
passes the command through under the pseudo-character `"UNKNOWN"`;
otherwise the default character is looked up, a leading token naming a
character the user owns selects that character (a character of another
user raises `RuntimeError`), and the remaining command is resolved through
the macro tables. -/
def resolve_command (st : RPGState) (user roll_command : String) :
    Except PyErr (String × String) :=
  match st.user_to_characters user with
  | none => .ok ("UNKNOWN", roll_command)
  | some userChars =>
    match st.user_default user with
    | none => .error (.keyError user)
    | some defaultChar =>
      match pySplit roll_command with
      | [] => .error .indexError
      | p0 :: rest =>
        let p0t := pyStrip p0
        match st.characters p0t with
        | some _ =>
          if userChars.contains p0t then
            resolveWith st p0t (String.intercalate " " rest)
          else .error (.runtimeError ["<@" ++ user ++ "> cannot roll for " ++ p0t])
        | none => resolveWith st defaultChar roll_command

/-- Source `RPGHelper.handle_roll` (lines 240–245): run `resolve_command` then
`roll`, catching only `RuntimeError` and rendering its arguments joined by
spaces; every other exception escapes. -/
def handle_roll (st : RPGState) (draw : Nat → Int) (user roll_command : String) :
    Except PyErr String :=
  match (match resolve_command st user roll_command with
         | .ok (character, cmd) => roll draw user character cmd
         | .error e => .error e) with
  | .error (.runtimeError args) => .ok (String.intercalate " " args)
  | r => r

end RPGHelper

/-- Modelled from the spec: `modifier(v) == floor(v/2) - 5`, rendered with
an explicit `+` iff the modifier is nonnegative.  This follows the spec's
words (`floor`, i.e. `Int.fdiv`) and exists only to be compared with the
source's `Stats.get_modifier`, which truncates toward zero. -/
def specFloorModifier (value : Int) : String :=
  let mod := Int.fdiv value 2 - 5
  if mod < 0 then toString mod else "+" ++ toString mod

/-- The C9 invariant: for each of the six canonical abilities, either the
ability is absent and so is its modifier entry, or the ability holds an
integer and the modifier entry holds exactly the derived modifier string. -/
def modSynced (s : StatsMap) : Prop :=
  ∀ a ∈ STAT_ORDER,
    (s a = none ∧ s (a ++ "mod") = none) ∨
    ∃ n : Int, s a = some (.int n) ∧ s (a ++ "mod") = some (.str (Stats.get_modifier n))

/-- A concrete stats dictionary used to instantiate the general theorems:
level 1, proficient in `atk`, one local macro `atk ↦ d4` and a local-only
macro `heal ↦ d8`. -/
def statsW : StatsMap := fun k =>
  if k = "level" then some (.int 1)
  else if k = "proficient_rolls" then some (.list ["atk"])
  else if k = "strmod" then some (.str "+2")
  else if k = "macros" then some (.dict [("atk", "d4"), ("heal", "d8")])
  else none

/-- A concrete engine state: user `u1` owns `hero` (the default), user
`u2` owns `enemy`; the global table defines `atk ↦ d6` and a macro `bad`
whose template references a placeholder absent from every context. -/
def stW : RPGHelper.RPGState :=
  { macros := fun k =>
      if k = "atk" then some "d6" else if k = "bad" then some "d20{foo}" else none
    user_to_characters := fun u =>
      if u = "u1" then some ["hero"] else if u = "u2" then some ["enemy"] else none
    user_default := fun u =>
      if u = "u1" then some "hero" else if u = "u2" then some "enemy" else none
    characters := fun c =>
      if c = "hero" then some statsW else if c = "enemy" then some statsW else none }

/-! ### Helper lemmas -/

theorem empty_synced : modSynced emptyStats := by
  intro a _
  exact Or.inl ⟨rfl, rfl⟩

theorem base_mod_mem : ∀ a ∈ STAT_ORDER, a ++ "mod" ∈ MOD_KEYS := by decide

theorem base_not_mod : ∀ a ∈ STAT_ORDER, a ∉ MOD_KEYS := by decide

theorem base_ne_mod_append : ∀ a ∈ STAT_ORDER, ∀ k ∈ STAT_ORDER, a ≠ k ++ "mod" := by
  decide

theorem mod_append_inj :
    ∀ a ∈ STAT_ORDER, ∀ k ∈ STAT_ORDER, a ++ "mod" = k ++ "mod" → a = k := by decide

theorem setitem_synced (s : StatsMap) (k : String) (v : PyVal) (s' : StatsMap)
    (h : Stats.setitem s k v = .ok s') (hs : modSynced s) : modSynced s' := by
  unfold Stats.setitem at h
  by_cases hmod : k ∈ MOD_KEYS
  · rw [if_pos hmod] at h
    cases h
    exact hs
  · rw [if_neg hmod] at h
    by_cases hbase : k ∈ STAT_ORDER
    · rw [if_pos hbase] at h
      cases v with
      | int n =>
        cases h
        intro a ha
        by_cases hak : a = k
        · subst hak
          refine Or.inr ⟨n, ?_, ?_⟩
          · have h1 : a ++ "mod" ≠ a := fun hc =>
              base_not_mod a ha (hc ▸ base_mod_mem a ha)
            simp [updateMap]
          · have h1 : a ++ "mod" ≠ a := fun hc =>
              base_not_mod a ha (hc ▸ base_mod_mem a ha)
            simp [updateMap, h1]
        · have h1 : a ≠ k ++ "mod" := base_ne_mod_append a ha k hbase
          have h2 : a ++ "mod" ≠ k := fun hc => (base_ne_mod_append k hbase a ha) hc.symm
          have h3 : a ++ "mod" ≠ k ++ "mod" := fun hc => hak (mod_append_inj a ha k hbase hc)
          rcases hs a ha with ⟨hn, hm⟩ | ⟨m, hn, hm⟩
          · exact Or.inl (by simp [updateMap, hak, h1, h2, h3, hn, hm])
          · exact Or.inr ⟨m, by simp [updateMap, hak, h1, h2, h3, hn, hm]⟩
      | str sv => exact absurd h (by simp)
      | list lv => exact absurd h (by simp)
      | dict dv => exact absurd h (by simp)
    · rw [if_neg hbase] at h
      cases h
      intro a ha
      have h1 : a ≠ k := fun hc => hbase (hc ▸ ha)
      have h2 : a ++ "mod" ≠ k := fun hc => hmod (hc ▸ base_mod_mem a ha)
      rcases hs a ha with ⟨hn, hm⟩ | ⟨m, hn, hm⟩
      · exact Or.inl (by simp [updateMap, h1, h2, hn, hm])
      · exact Or.inr ⟨m, by simp [updateMap, h1, h2, hn, hm]⟩

theorem foldl_synced :
    ∀ (l : List (String × PyVal)) (s₀ : StatsMap), modSynced s₀ →
      ∀ s', l.foldlM (fun s kv => Stats.setitem s kv.1 kv.2) s₀ = .ok s' → modSynced s'
  | [], s₀, h₀, s', h => by
    simp only [List.foldlM_nil, pure] at h
    cases h
    exact h₀
  | kv :: t, s₀, h₀, s', h => by
    rw [List.foldlM_cons] at h
    cases hstep : Stats.setitem s₀ kv.1 kv.2 with
    | error e => rw [hstep] at h; exact absurd h (by simp [Bind.bind, Except.bind])
    | ok s₁ =>
      rw [hstep] at h
      have h₁ : modSynced s₁ := setitem_synced s₀ kv.1 kv.2 s₁ hstep h₀
      exact foldl_synced t s₁ h₁ s' (by simpa [Bind.bind, Except.bind] using h)

theorem lookupStr_mem (d : List (String × String)) (k v : String)
    (h : lookupStr d k = some v) : d.any (fun p => p.1 == k) = true := by
  induction d with
  | nil => simp [lookupStr] at h
  | cons p rest ih =>
    by_cases hp : p.1 = k
    · simp [List.any_cons, hp]
    · rw [lookupStr, if_neg hp] at h
      simp [List.any_cons, ih h]

/-! ### Claim theorems -/

/-- Claim C9: after any sequence of writes through `Stats.__setitem__`
(including construction from an arbitrary source mapping), every derived
modifier entry for the six canonical abilities is in sync with its base
ability value, and a direct write to any of the six modifier keys is
silently ignored, leaving the dictionary untouched. -/
theorem c9_modifier_sync :
    (∀ (s : StatsMap) (k : String) (v : PyVal) (s' : StatsMap),
      modSynced s → Stats.setitem s k v = .ok s' → modSynced s') ∧
    (∀ (d : List (String × PyVal)) (s : StatsMap),
      Stats.init d = .ok s → modSynced s) ∧
    (∀ (s : StatsMap) (k : String) (v : PyVal),
      k ∈ MOD_KEYS → Stats.setitem s k v = .ok s) := by
  refine ⟨fun s k v s' hs h => setitem_synced s k v s' h hs,
          fun d s h => foldl_synced d emptyStats empty_synced s h,
          fun s k v hk => ?_⟩
  unfold Stats.setitem
  rw [if_pos hk]

/-- Witness for C9: constructing a stats dictionary from `{"str": 14}`
yields a synced map, and writing `strmod` directly is a no-op. -/
theorem c9_modifier_sync_witness :
    modSynced (updateMap (updateMap emptyStats ("str" ++ "mod")
      (.str (Stats.get_modifier 14))) "str" (.int 14)) ∧
    Stats.setitem emptyStats "strmod" (.str "+9") = .ok emptyStats :=
  ⟨c9_modifier_sync.2.1 [("str", PyVal.int 14)] _ rfl,
   c9_modifier_sync.2.2 emptyStats "strmod" (.str "+9") (by decide)⟩

/-- Counterexample to claim C2 as stated: at the ability value `-1` the
source's modifier (`int(-1/2) - 5 = -5`, truncation toward zero) differs
from the spec's `floor(-1/2) - 5 = -6`. -/
theorem c2_cx : Stats.get_modifier (-1) ≠ specFloorModifier (-1) := by decide

/-- Claim C2 (amended): for nonnegative ability values the modifier equals
`floor(v/2) - 5` (in general the source truncates toward zero, which
differs from floor at negative odd values), and the rendered string starts
with an explicit `+` iff the modifier is nonnegative. -/
theorem c2_modifier (v : Int) :
    (0 ≤ v → Stats.get_modifier v = specFloorModifier v) ∧
    ((∃ t, Stats.get_modifier v = "+" ++ t) ↔ 0 ≤ Int.tdiv v 2 - 5) := by
  constructor
  · intro hv
    unfold Stats.get_modifier specFloorModifier
    rw [Int.fdiv_eq_tdiv hv (by norm_num)]
  · constructor
    · rintro ⟨t, ht⟩
      by_contra hneg
      push_neg at hneg
      unfold Stats.get_modifier at ht
      rw [if_pos hneg] at ht
      obtain ⟨k, hI⟩ := Int.eq_negSucc_of_lt_zero hneg
      rw [hI, show toString (Int.negSucc k) = "-" ++ Nat.repr (k+1) from rfl] at ht
      have hd := congrArg String.data ht
      rw [String.data_append, String.data_append] at hd
      have h3 : ('-' :: (Nat.repr (k+1)).data : List Char) = '+' :: t.data := hd
      simp at h3
    · intro hpos
      refine ⟨toString (Int.tdiv v 2 - 5), ?_⟩
      unfold Stats.get_modifier
      rw [if_neg (by omega)]

/-- Witness for C2 (amended), at the ability value 14. -/
theorem c2_modifier_witness :
    Stats.get_modifier 14 = specFloorModifier 14 ∧
    ∃ t, Stats.get_modifier 14 = "+" ++ t :=
  ⟨(c2_modifier 14).1 (by decide), (c2_modifier 14).2.mpr (by decide)⟩

/-- Claim C8: for every positive level, the proficiency-bonus string is
`floor((level-1)/4) + 2` rendered with a leading `+`; in particular `+2`
at level 1, `+3` at level 5 and `+4` at level 9. -/
theorem c8_proficiency :
    (∀ level : Int, 1 ≤ level →
      RPGHelper.get_proficiency_by_level level =
        "+" ++ toString (Int.fdiv (level - 1) 4 + 2)) ∧
    RPGHelper.get_proficiency_by_level 1 = "+2" ∧
    RPGHelper.get_proficiency_by_level 5 = "+3" ∧
    RPGHelper.get_proficiency_by_level 9 = "+4" := by
  refine ⟨fun level hl => ?_, by decide, by decide, by decide⟩
  unfold RPGHelper.get_proficiency_by_level
  rw [Int.fdiv_eq_tdiv (by omega) (by norm_num)]

/-- Witness for C8, at level 5. -/
theorem c8_proficiency_witness :
    RPGHelper.get_proficiency_by_level 5 = "+" ++ toString (Int.fdiv (5 - 1) 4 + 2) :=
  c8_proficiency.1 5 (by decide)

/-- Claim C1: for every pair of primary/re-roll sets, the selection of
lines 326–333 chooses a set whose sum is `≥` the primary's under a
stripped flag `A` (and equals the re-roll set exactly when its sum
strictly exceeds the primary's), `≤` under `D` (re-roll set exactly when
strictly smaller), and is always the primary set when no flag was
captured. -/
theorem c1_advantage (rolls rerolls : List Int) (advRaw : String) :
    (pyStrip advRaw = "A" →
      rolls.sum ≤ (RPGHelper.true_rolls (some advRaw) rolls rerolls).sum ∧
      (rolls.sum < rerolls.sum →
        RPGHelper.true_rolls (some advRaw) rolls rerolls = rerolls) ∧
      (¬ rolls.sum < rerolls.sum →
        RPGHelper.true_rolls (some advRaw) rolls rerolls = rolls)) ∧
    (pyStrip advRaw = "D" →
      (RPGHelper.true_rolls (some advRaw) rolls rerolls).sum ≤ rolls.sum ∧
      (rerolls.sum < rolls.sum →
        RPGHelper.true_rolls (some advRaw) rolls rerolls = rerolls) ∧
      (¬ rerolls.sum < rolls.sum →
        RPGHelper.true_rolls (some advRaw) rolls rerolls = rolls)) ∧
    RPGHelper.true_rolls none rolls rerolls = rolls := by
  refine ⟨fun hA => ?_, fun hD => ?_, rfl⟩
  · have hsel : RPGHelper.true_rolls (some advRaw) rolls rerolls =
        if rolls.sum < rerolls.sum then rerolls else rolls := by
      simp [RPGHelper.true_rolls, hA]
    by_cases hlt : rolls.sum < rerolls.sum
    · rw [hsel, if_pos hlt]
      exact ⟨le_of_lt hlt, fun _ => rfl, fun hn => absurd hlt hn⟩
    · rw [hsel, if_neg hlt]
      exact ⟨le_refl _, fun hc => absurd hc hlt, fun _ => rfl⟩
  · have hsel : RPGHelper.true_rolls (some advRaw) rolls rerolls =
        if rerolls.sum < rolls.sum then rerolls else rolls := by
      simp [RPGHelper.true_rolls, hD]
    by_cases hlt : rerolls.sum < rolls.sum
    · rw [hsel, if_pos hlt]
      exact ⟨le_of_lt hlt, fun _ => rfl, fun hn => absurd hlt hn⟩
    · rw [hsel, if_neg hlt]
      exact ⟨le_refl _, fun hc => absurd hc hlt, fun _ => rfl⟩

/-- Witness for C1: concrete selections under `" A"`, `" D"` and no flag. -/
theorem c1_advantage_witness :
    RPGHelper.true_rolls (some " A") [(1:Int)] [5] = [5] ∧
    RPGHelper.true_rolls (some " D") [(1:Int)] [5] = [1] ∧
    RPGHelper.true_rolls none [(1:Int)] [5] = [1] :=
  ⟨((c1_advantage [1] [5] " A").1 (by decide)).2.1 (by decide),
   ((c1_advantage [1] [5] " D").2.1 (by decide)).2.2 (by decide),
   (c1_advantage [1] [5] " A").2.2⟩

/-- Counterexample to claim C3 as stated: the roll regex is not anchored
at the end of the input, so `1d8 X` is accepted (parsed as a plain `1d8`
with the trailing ` X` ignored) instead of being rejected with an
"unknown command" error; moreover the greedy `\s*` after the sides
swallows the whitespace of `1d8 A`, so that flag is dropped, while the
class `[A|D]` also admits the literal `|` (reachable after a constant). -/
theorem c3_cx :
    RPGHelper.rollParse "1d8 X" = some ⟨"1", "8", [], none⟩ ∧
    RPGHelper.rollParse "1d8 A" = some ⟨"1", "8", [], none⟩ ∧
    RPGHelper.rollParse "1d8+0 |" = some ⟨"1", "8", ["+0"], some " |"⟩ ∧
    RPGHelper.roll (fun _ => 1) "u" "c" "1d8 X" ≠
      .ok ("<@u> Unknown command: 1d8 X") := by decide

/-- Claim C3 (amended): the grammar is anchored only at the start of the
stripped input; trailing text that cannot extend the match (such as ` X`
in `1d8 X`) is silently ignored, and only an input whose stripped text
does not begin with `[digits]d<digits>` is rejected with an "unknown
command" error echoing the original text.  A trailing flag (from the
class `[A|D]`, which also admits `|`) is captured only when its leading
whitespace is not already consumed by the `\s*` after the sides, i.e.
only directly after a constant term; in particular `1d8 A` parses with no
flag. -/
theorem c3_anchoring :
    (∀ (draw : Nat → Int) (user character cmd : String),
      RPGHelper.rollParse cmd = none →
      RPGHelper.roll draw user character cmd =
        .ok ("<@" ++ user ++ "> Unknown command: " ++ cmd)) ∧
    RPGHelper.rollParse "1d8 X" = some ⟨"1", "8", [], none⟩ ∧
    RPGHelper.rollParse "1d8 A" = some ⟨"1", "8", [], none⟩ ∧
    RPGHelper.rollParse "1d8+0 A" = some ⟨"1", "8", ["+0"], some " A"⟩ ∧
    RPGHelper.rollParse "1d8+0 D" = some ⟨"1", "8", ["+0"], some " D"⟩ ∧
    RPGHelper.rollParse "1d8+0 |" = some ⟨"1", "8", ["+0"], some " |"⟩ ∧
    RPGHelper.rollParse "xyz" = none ∧
    RPGHelper.rollParse "1d8 X" ≠ none := by
  refine ⟨fun draw user character cmd h => ?_,
    by decide, by decide, by decide, by decide, by decide, by decide, by decide⟩
  unfold RPGHelper.roll
  rw [h]

/-- Witness for C3 (amended): the unknown-command response at `xyz`. -/
theorem c3_anchoring_witness :
    RPGHelper.roll (fun _ => 1) "u" "c" "xyz" =
      .ok ("<@u> Unknown command: " ++ "xyz") :=
  c3_anchoring.1 (fun _ => 1) "u" "c" "xyz" (by decide)

/-- Claim C4: the parser captures every signed constant term (not only
the last), internal whitespace in a captured constant is stripped before
conversion, and each constant contributes to the total: `2d6+3-1` yields
count 2, sides 6, ordered constants `[+3, -1]`, and the total adds both
`+3` and `-1` to the chosen roll set. -/
theorem c4_constants :
    RPGHelper.rollParse "2d6+3-1" = some ⟨"2", "6", ["+3", "-1"], none⟩ ∧
    RPGHelper.numberOf ⟨"2", "6", ["+3", "-1"], none⟩ = 2 ∧
    digitsToNat "6".data = 6 ∧
    ["+3", "-1"].map RPGHelper.constToInt = [3, -1] ∧
    RPGHelper.rollParse "2d6+ 3- 1" = some ⟨"2", "6", ["+ 3", "- 1"], none⟩ ∧
    ["+ 3", "- 1"].map RPGHelper.constToInt = [3, -1] ∧
    (∀ rolls rerolls : List Int,
      RPGHelper.rollTotal ⟨"2", "6", ["+3", "-1"], none⟩ rolls rerolls =
        rolls.sum + 3 + -1) := by
  refine ⟨by decide, by decide, by decide, by decide, by decide, by decide,
    fun rolls rerolls => ?_⟩
  have h2 : ((([ "+3", "-1" ] : List String).filter (fun c => !c.isEmpty)).map
      RPGHelper.constToInt).sum = (2 : Int) := by decide
  simp only [RPGHelper.rollTotal, h2]
  rw [show RPGHelper.true_rolls none rolls rerolls = rolls from rfl]
  omega

/-- Witness for C4: the total of `2d6+3-1` at the concrete primary set
`[2, 5]`. -/
theorem c4_constants_witness :
    RPGHelper.rollTotal ⟨"2", "6", ["+3", "-1"], none⟩ [2, 5] [1, 1] =
      ([2, 5] : List Int).sum + 3 + -1 :=
  c4_constants.2.2.2.2.2.2 [2, 5] [1, 1]

/-- Claim C5: an omitted die count defaults to 1: `d20` parses with empty
count digits and 20 sides, the applied count is 1, and its evaluation
coincides with that of `1d20` for every random stream. -/
theorem c5_default_count :
    RPGHelper.rollParse "d20" = some ⟨"", "20", [], none⟩ ∧
    RPGHelper.numberOf ⟨"", "20", [], none⟩ = 1 ∧
    RPGHelper.rollParse "1d20" = some ⟨"1", "20", [], none⟩ ∧
    RPGHelper.numberOf ⟨"1", "20", [], none⟩ = 1 ∧
    (∀ draw : Nat → Int,
      RPGHelper.evalGroups draw ⟨"", "20", [], none⟩ =
        RPGHelper.evalGroups draw ⟨"1", "20", [], none⟩) :=
  ⟨by decide, by decide, by decide, by decide, fun draw => rfl⟩

/-- Witness for C5: `d20` and `1d20` evaluate identically on a concrete
stream. -/
theorem c5_default_count_witness :
    RPGHelper.evalGroups (fun _ => (7 : Int)) ⟨"", "20", [], none⟩ =
      RPGHelper.evalGroups (fun _ => (7 : Int)) ⟨"1", "20", [], none⟩ :=
  c5_default_count.2.2.2.2 (fun _ => (7 : Int))

/-- Claim C6: macro lookup is global-first.  Under the hypotheses that pin
the resolution path (user known, no leading character token, default
character's stats found, integer level, flag split), if the stripped
command is a key of the global table its template is expanded — whatever
the character-local table holds — and the local table's template is
expanded only when the global table misses. -/
theorem c6_global_first (st : RPGHelper.RPGState) (user cmd : String)
    (userChars : List String) (defaultChar : String) (p0 : String) (rest : List String)
    (stats : StatsMap) (lv : Int) (name : String) (adv : Option String)
    (h1 : st.user_to_characters user = some userChars)
    (h2 : st.user_default user = some defaultChar)
    (h3 : pySplit cmd = p0 :: rest)
    (h4 : st.characters (pyStrip p0) = none)
    (h5 : st.characters defaultChar = some stats)
    (h6 : stats "level" = some (.int lv))
    (h7 : RPGHelper.advSplit cmd = (name, adv)) :
    (∀ tmpl, st.macros name = some tmpl →
      RPGHelper.resolve_command st user cmd =
        (RPGHelper.expandMacro tmpl stats name
          (RPGHelper.get_proficiency_by_level lv) adv).map (fun r => (defaultChar, r))) ∧
    (∀ d tmpl, st.macros name = none → stats "macros" = some (.dict d) →
      lookupStr d name = some tmpl →
      RPGHelper.resolve_command st user cmd =
        (RPGHelper.expandMacro tmpl stats name
          (RPGHelper.get_proficiency_by_level lv) adv).map (fun r => (defaultChar, r))) := by
  have hres : ∀ res, RPGHelper.resolveWith st defaultChar cmd = res →
      RPGHelper.resolve_command st user cmd = res := by
    intro res hr
    unfold RPGHelper.resolve_command
    simp only [h1, h2, h3, h4]
    exact hr
  constructor
  · intro tmpl htmpl
    apply hres
    unfold RPGHelper.resolveWith
    simp only [h5, h6, h7, htmpl]
  · intro d tmpl hg hm hl
    apply hres
    unfold RPGHelper.resolveWith
    have hc : (d.any (fun p => p.1 == name)) = true := lookupStr_mem d name tmpl hl
    simp only [h5, h6, h7, hg, hm, pyContains, hc, hl]

/-- Witness for C6: in the concrete state the global `atk ↦ d6` shadows
the local `atk ↦ d4`, while the local-only `heal ↦ d8` resolves. -/
theorem c6_global_first_witness :
    RPGHelper.resolve_command stW "u1" "atk" = .ok ("hero", "d6") ∧
    RPGHelper.resolve_command stW "u1" "heal" = .ok ("hero", "d8") := by
  constructor
  · rw [(c6_global_first stW "u1" "atk" ["hero"] "hero" "atk" [] statsW 1 "atk" none
      rfl rfl rfl rfl rfl rfl rfl).1 "d6" rfl]
    decide
  · rw [(c6_global_first stW "u1" "heal" ["hero"] "hero" "heal" [] statsW 1 "heal" none
      rfl rfl rfl rfl rfl rfl rfl).2 [("atk", "d4"), ("heal", "d8")] "d8" rfl rfl rfl]
    decide

/-- Counterexample to claim C7 as stated: `handle_roll` catches only
`RuntimeError`, so a template substitution whose placeholder (`{foo}`) is
absent from the stat context raises a `KeyError` that escapes the roll
handler as an uncaught exception instead of producing a user-facing
message. -/
theorem c7_cx :
    RPGHelper.handle_roll stW (fun _ => 1) "u1" "bad" = .error (.keyError "foo") := by
  decide

/-- Claim C7 (amended): failures raised as `RuntimeError` (such as rolling
for a character one does not own) are caught by `handle_roll` and rendered
as a user-facing message built from the exception's arguments, and the
engine mutates no state on any path; but a template substitution that
references a placeholder absent from the stat context raises a `KeyError`
that `handle_roll` does not catch, escaping as an uncaught exception. -/
theorem c7_error_paths (st : RPGHelper.RPGState) (draw : Nat → Int) (user cmd : String) :
    (∀ args, RPGHelper.resolve_command st user cmd = .error (.runtimeError args) →
      RPGHelper.handle_roll st draw user cmd = .ok (String.intercalate " " args)) ∧
    (∀ k, RPGHelper.resolve_command st user cmd = .error (.keyError k) →
      RPGHelper.handle_roll st draw user cmd = .error (.keyError k)) := by
  constructor
  · intro args h
    unfold RPGHelper.handle_roll
    rw [h]
  · intro k h
    unfold RPGHelper.handle_roll
    rw [h]

/-- Witness for C7 (amended): the ownership `RuntimeError` is rendered as
a message, while the missing-placeholder `KeyError` escapes. -/
theorem c7_error_paths_witness :
    RPGHelper.resolve_command stW "u1" "enemy 1d20" =
      .error (.runtimeError ["<@u1> cannot roll for enemy"]) ∧
    RPGHelper.handle_roll stW (fun _ => 1) "u1" "enemy 1d20" =
      .ok (String.intercalate " " ["<@u1> cannot roll for enemy"]) ∧
    RPGHelper.handle_roll stW (fun _ => 1) "u1" "bad" = .error (.keyError "foo") :=
  ⟨by decide,
   (c7_error_paths stW (fun _ => 1) "u1" "enemy 1d20").1
     ["<@u1> cannot roll for enemy"] (by decide),
   (c7_error_paths stW (fun _ => 1) "u1" "bad").2 "foo" (by decide)⟩

/-- Claim C10: resolution is stable.  A user with no characters gets the
command passed through unchanged; under the path hypotheses of C6, a
command whose stripped head is neither a global nor a character-local
macro key is returned unchanged; and resolution is a pure function of the
state and inputs, so resolving twice yields identical results. -/
theorem c10_stability :
    (∀ (st : RPGHelper.RPGState) (user cmd : String),
      st.user_to_characters user = none →
      RPGHelper.resolve_command st user cmd = .ok ("UNKNOWN", cmd)) ∧
    (∀ (st : RPGHelper.RPGState) (user cmd : String)
      (userChars : List String) (defaultChar : String) (p0 : String)
      (rest : List String) (stats : StatsMap) (lv : Int) (name : String)
      (adv : Option String),
      st.user_to_characters user = some userChars →
      st.user_default user = some defaultChar →
      pySplit cmd = p0 :: rest →
      st.characters (pyStrip p0) = none →
      st.characters defaultChar = some stats →
      stats "level" = some (.int lv) →
      RPGHelper.advSplit cmd = (name, adv) →
      st.macros name = none →
      (stats "macros" = none ∨
        ∃ m, stats "macros" = some m ∧ pyContains m name = .ok false) →
      RPGHelper.resolve_command st user cmd = .ok (defaultChar, cmd)) ∧
    (∀ (st : RPGHelper.RPGState) (user cmd : String),
      RPGHelper.resolve_command st user cmd = RPGHelper.resolve_command st user cmd) := by
  refine ⟨fun st user cmd h => ?_, ?_, fun st user cmd => rfl⟩
  · unfold RPGHelper.resolve_command
    simp only [h]
  · intro st user cmd userChars defaultChar p0 rest stats lv name adv
      h1 h2 h3 h4 h5 h6 h7 h8 h9
    have hres : ∀ res, RPGHelper.resolveWith st defaultChar cmd = res →
        RPGHelper.resolve_command st user cmd = res := by
      intro res hr
      unfold RPGHelper.resolve_command
      simp only [h1, h2, h3, h4]
      exact hr
    apply hres
    unfold RPGHelper.resolveWith
    rcases h9 with hnone | ⟨m, hmac, hcont⟩
    · simp only [h5, h6, h7, h8, hnone]
    · simp only [h5, h6, h7, h8, hmac, hcont]

/-- Witness for C10: the non-macro command `1d20` passes through both for
an unknown user and for `u1`. -/
theorem c10_stability_witness :
    RPGHelper.resolve_command stW "u3" "1d20" = .ok ("UNKNOWN", "1d20") ∧
    RPGHelper.resolve_command stW "u1" "1d20" = .ok ("hero", "1d20") :=
  ⟨c10_stability.1 stW "u3" "1d20" rfl,
   c10_stability.2.1 stW "u1" "1d20" ["hero"] "hero" "1d20" [] statsW 1 "1d20" none
     rfl rfl rfl rfl rfl rfl rfl rfl
     (Or.inr ⟨.dict [("atk", "d4"), ("heal", "d8")], rfl, by decide⟩)⟩
